import Mathlib

/-!
Verification of the AI coaching orchestration engine of a fitness-tracking
backend: the exercise-kind rules engine (kind rule table, set normalizer,
compact-spec expander), the tool executor dispatch boundary, and the
conversation orchestrator loop (dedup / single-call / round-budget policies
and the non-empty final-message guarantee).

The definitions below are a shallow embedding of `backend/services/ai_chat.py`
and `backend/constants.py`.  Numeric set values are modelled with `Int` (reps)
and `ℚ` (weight / duration / distance); optional values with `Option`;
the external database and language model are oracles passed as functions.
-/

namespace AiChat

/-- The four numeric set fields an exercise kind may permit. -/
inductive Field where
  | reps
  | weight
  | duration
  | distance
deriving DecidableEq, Repr

/-- `EXERCISE_KIND_RULES` from `backend/constants.py`: each exercise kind
maps to the list of set fields it permits (descriptions omitted — they are
prose, not used by any logic the claims concern). -/
def EXERCISE_KIND_RULES : List (String × List Field) :=
  [ ("Barbell", [Field.reps, Field.weight])
  , ("Dumbbell", [Field.reps, Field.weight])
  , ("Machine/Other", [Field.reps, Field.weight])
  , ("Weighted Bodyweight", [Field.reps, Field.weight])
  , ("Assisted Bodyweight", [Field.reps, Field.weight])
  , ("Reps Only", [Field.reps])
  , ("Duration", [Field.duration])
  , ("Cardio", [Field.duration, Field.distance])
  , ("Weighted Cardio", [Field.duration, Field.weight, Field.distance])
  , ("Weighted Duration", [Field.duration, Field.weight])
  , ("EMOM (Every Minute On The Minute)", [Field.reps, Field.weight, Field.duration])
  , ("ETOT (Every Thirty Seconds on Thirty Seconds)", [Field.reps, Field.weight, Field.duration])
  ]

/-- `DEFAULT_EXERCISE_KIND`: "Machine/Other" if present in the rule table,
else the first key, else "Machine/Other" (mirrors `ai_chat.py` lines 45-49). -/
def DEFAULT_EXERCISE_KIND : String :=
  if (EXERCISE_KIND_RULES.lookup "Machine/Other").isSome then "Machine/Other"
  else match EXERCISE_KIND_RULES with
       | [] => "Machine/Other"
       | p :: _ => p.1

/-- Kind resolution performed at the top of `_normalize_set_fields_by_kind`:
a falsy (empty) kind and a kind missing from the rule table both fall back
to `DEFAULT_EXERCISE_KIND`. -/
def resolveKind (kind : String) : String :=
  let k := if kind = "" then DEFAULT_EXERCISE_KIND else kind
  if (EXERCISE_KIND_RULES.lookup k).isSome then k else DEFAULT_EXERCISE_KIND

/-- The `allowed` field set computed by `_normalize_set_fields_by_kind`. -/
def allowedOf (kind : String) : List Field :=
  (EXERCISE_KIND_RULES.lookup (resolveKind kind)).getD []

/-- The output record of the set normalizer: a partial map from the four
set fields to values (a `none` component means the key is absent from the
Python dict). -/
structure SetFields where
  reps : Option Int
  weight : Option ℚ
  duration : Option ℚ
  distance : Option ℚ
deriving DecidableEq, Repr

/-- The empty output dict. -/
def SetFields.empty : SetFields := ⟨none, none, none, none⟩

/-- Step 2 of the normalizer: include each candidate field only if it is
allowed and (for all but `reps`) a value was supplied; `reps`, when allowed,
always receives a value (default 10). -/
def normStep2 (allowed : List Field) (reps : Option Int)
    (weight duration distance : Option ℚ) : SetFields :=
  { reps := if Field.reps ∈ allowed then some (reps.getD 10) else none
  , weight := if Field.weight ∈ allowed then weight else none
  , duration := if Field.duration ∈ allowed then duration else none
  , distance := if Field.distance ∈ allowed then distance else none }

/-- Step 3 of the normalizer: for a time/distance-only kind with neither
duration nor distance populated, inject a default duration (600 if distance
is permitted, else 30). -/
def normStep3 (allowed : List Field) (s : SetFields) : SetFields :=
  if ((Field.duration ∈ allowed ∨ Field.distance ∈ allowed) ∧ Field.reps ∉ allowed)
      ∧ s.duration = none ∧ s.distance = none then
    { s with duration := some (if Field.distance ∈ allowed then (600 : ℚ) else 30) }
  else s

/-- Step 4 of the normalizer (the "final safety" branch): if nothing was
populated, emit reps (supplied value or 10) plus weight if supplied. -/
def normStep4 (reps : Option Int) (weight : Option ℚ) (s : SetFields) : SetFields :=
  if s = SetFields.empty then
    { reps := some (reps.getD 10), weight := weight, duration := none, distance := none }
  else s

/-- `_normalize_set_fields_by_kind` (`ai_chat.py` lines 685-724). -/
def normalizeSetFieldsByKind (kind : String) (reps : Option Int)
    (weight duration distance : Option ℚ) : SetFields :=
  let allowed := allowedOf kind
  normStep4 reps weight (normStep3 allowed (normStep2 allowed reps weight duration distance))

/-! ### Compact-spec expander (`_build_template_exercises_from_compact`) -/

/-- One entry of a compact spec's `sets` array: either not a JSON object
(skipped by the expander's loop) or an object carrying an optional
`set_type` and the four optional numeric hints. -/
inductive SetItem where
  | notDict
  | dict (set_type : Option String) (reps : Option Int)
      (weight duration distance : Option ℚ)
deriving DecidableEq, Repr

/-- Whether a `sets` array entry is a JSON object (`isinstance(set_item, dict)`). -/
def SetItem.isDict : SetItem → Bool
  | SetItem.notDict => false
  | SetItem.dict _ _ _ _ _ => true

/-- `CompactExerciseSpec` (spec §3).  `exercise_id` is `none` when missing
or falsy; `sets` is `some items` exactly when the supplied value is a list
(absent values and non-list values are treated identically by the code, so
both are `none`).  The scalar hint fields (`reps`, `weight`, `duration`,
`distance`) belong to the data model but, notably, are never read by
`_build_template_exercises_from_compact`. -/
structure CompactSpec where
  exercise_id : Option String
  sets : Option (List SetItem)
  notes : Option String
  reps : Option Int
  weight : Option ℚ
  duration : Option ℚ
  distance : Option ℚ
deriving DecidableEq, Repr

/-- One stored set produced by the expander: a `set_type` plus normalized
numeric fields. -/
structure SetRecord where
  set_type : String
  fields : SetFields
deriving DecidableEq, Repr

/-- The four accepted `set_type` values (`ai_chat.py` line 769). -/
def validSetTypes : List String := ["normal", "warmup", "cooldown", "failure"]

/-- Per-entry processing of an explicit `sets` array (`ai_chat.py` lines
764-780): non-objects are skipped; a missing or unrecognized `set_type`
silently becomes "normal"; the entry's own hinted fields are normalized by
the governing kind. -/
def parseSetItem (kind : String) : SetItem → Option SetRecord
  | SetItem.notDict => none
  | SetItem.dict st r w d dist =>
      let st0 := st.getD "normal"
      let st1 := if st0 ∈ validSetTypes then st0 else "normal"
      some ⟨st1, normalizeSetFieldsByKind kind r w d dist⟩

/-- Default-set generation (both fallback branches of the expander, lines
782-798 and 799-817): 1 set if the kind is time/distance-only, else 3 sets,
each normalized with no supplied values. -/
def defaultSetsFor (kind : String) : List SetRecord :=
  let rule_fields := (EXERCISE_KIND_RULES.lookup kind).getD []
  let n : Nat :=
    if (Field.duration ∈ rule_fields ∨ Field.distance ∈ rule_fields)
        ∧ Field.reps ∉ rule_fields then 1 else 3
  List.replicate n ⟨"normal", normalizeSetFieldsByKind kind none none none none⟩

/-- Kind resolution for one spec (`ai_chat.py` lines 752-754): the
database's answer (`kindMap`), falling back to the default kind when the
exercise is unknown, falsy, or its kind is not in the rule table. -/
def resolveSpecKind (kindMap : String → Option String) (exId : String) : String :=
  let k0 := match kindMap exId with
            | none => DEFAULT_EXERCISE_KIND
            | some s => if s = "" then DEFAULT_EXERCISE_KIND else s
  if (EXERCISE_KIND_RULES.lookup k0).isSome then k0 else DEFAULT_EXERCISE_KIND

/-- Stored template exercise produced by the expander (lines 823-835). -/
structure TemplateExercise where
  exercise_id : String
  order : Nat
  sets : List SetRecord
  notes : Option String
  default_sets : Nat
  default_reps : Option Int
  default_weight : Option ℚ
  default_duration : Option ℚ
  default_distance : Option ℚ
deriving DecidableEq, Repr

/-- Expansion of a single compact spec sitting at position `i` of the input
list; `none` models the `continue` taken when the spec lacks an
`exercise_id`. -/
def expandOne (kindMap : String → Option String) (i : Nat) (ex : CompactSpec) :
    Option TemplateExercise :=
  match ex.exercise_id with
  | none => none
  | some exId =>
      let kind := resolveSpecKind kindMap exId
      let sets_arr : List SetRecord :=
        match ex.sets with
        | some raw =>
            let parsed := raw.filterMap (parseSetItem kind)
            if parsed = [] then defaultSetsFor kind else parsed
        | none => defaultSetsFor kind
      let first : Option SetRecord := sets_arr.head?
      some { exercise_id := exId
           , order := i
           , sets := sets_arr
           , notes := ex.notes
           , default_sets := sets_arr.length
           , default_reps := first.bind (fun s => s.fields.reps)
           , default_weight := first.bind (fun s => s.fields.weight)
           , default_duration := first.bind (fun s => s.fields.duration)
           , default_distance := first.bind (fun s => s.fields.distance) }

/-- The `for i, ex in enumerate(exercises)` loop of the expander: `i` tracks
the position in the original input list. -/
def buildFrom (kindMap : String → Option String) : Nat → List CompactSpec → List TemplateExercise
  | _, [] => []
  | i, ex :: rest =>
      match expandOne kindMap i ex with
      | none => buildFrom kindMap (i + 1) rest
      | some t => t :: buildFrom kindMap (i + 1) rest

/-- `_build_template_exercises_from_compact` (`ai_chat.py` lines 727-837),
with the database's exercise-id → kind map abstracted as `kindMap`. -/
def buildTemplateExercisesFromCompact (kindMap : String → Option String)
    (exercises : List CompactSpec) : List TemplateExercise :=
  buildFrom kindMap 0 exercises

/-! ### Tool executor (`execute_tool`) -/

/-- Outcome of running one tool handler body: a returned JSON string or a
raised exception carrying a message. -/
inductive HandlerOutcome where
  | returns (result : String)
  | raises (message : String)
deriving DecidableEq, Repr

/-- `json.dumps` of a single-key error payload. -/
def errorJson (msg : String) : String := "\x7b\"error\": \"" ++ msg ++ "\"\x7d"

/-- The fourteen tool names recognized by the dispatch chain. -/
def knownToolNames : List String :=
  [ "profile__get_context", "profile__update_insights"
  , "exercise__get_all", "exercise__create_batch", "exercise__create_single"
  , "template__get_all", "template__create", "template__update"
  , "schedule__get", "schedule__add_workout", "schedule__update_workout"
  , "schedule__delete_workout"
  , "workout_history__get_all", "workout_history__get_by_exercise" ]

/-- The dispatch chain of `execute_tool` (`ai_chat.py` lines 848-1641):
each known tool name runs its handler (abstracted by the `handlers` oracle,
since every handler body performs database I/O); an unknown name falls
through to a structured error return. -/
def dispatchTool (handlers : String → String → HandlerOutcome)
    (tool_name arguments : String) : HandlerOutcome :=
  if tool_name = "profile__get_context" then handlers tool_name arguments
  else if tool_name = "profile__update_insights" then handlers tool_name arguments
  else if tool_name = "exercise__get_all" then handlers tool_name arguments
  else if tool_name = "exercise__create_batch" then handlers tool_name arguments
  else if tool_name = "exercise__create_single" then handlers tool_name arguments
  else if tool_name = "template__get_all" then handlers tool_name arguments
  else if tool_name = "template__create" then handlers tool_name arguments
  else if tool_name = "template__update" then handlers tool_name arguments
  else if tool_name = "schedule__get" then handlers tool_name arguments
  else if tool_name = "schedule__add_workout" then handlers tool_name arguments
  else if tool_name = "schedule__update_workout" then handlers tool_name arguments
  else if tool_name = "schedule__delete_workout" then handlers tool_name arguments
  else if tool_name = "workout_history__get_all" then handlers tool_name arguments
  else if tool_name = "workout_history__get_by_exercise" then handlers tool_name arguments
  else HandlerOutcome.returns (errorJson ("Unknown tool: " ++ tool_name))

/-- `execute_tool` (`ai_chat.py` lines 844-1645): the `try/except` at the
dispatch boundary converts any handler exception into a structured error
result, so the function always returns a string. -/
def executeTool (handlers : String → String → HandlerOutcome)
    (tool_name arguments : String) : String :=
  match dispatchTool handlers tool_name arguments with
  | HandlerOutcome.returns r => r
  | HandlerOutcome.raises e => errorJson e

/-! ### Conversation orchestrator (`generate_ai_chat_response`) -/

/-- Message roles (the `Literal` of the `ChatMessage` pydantic model). -/
inductive Role where
  | system
  | user
  | assistant
  | tool
deriving DecidableEq, Repr

/-- A serialized tool-call payload as stored in an assistant message
(`{"id": ..., "type": "function", "function": {"name", "arguments"}}`). -/
structure ToolCallPayload where
  id : String
  name : String
  arguments : String
deriving DecidableEq, Repr

/-- `ChatMessage` (`ai_chat.py` lines 64-74). -/
structure ChatMessage where
  role : Role
  content : String
  tool_name : Option String := none
  tool_call_id : Option String := none
  tool_calls : Option (List ToolCallPayload) := none
deriving DecidableEq, Repr

/-- A tool call requested by the model (`tc.function.name` and
`tc.function.arguments or ""`). -/
structure ToolCall where
  id : String
  name : String
  args : String
deriving DecidableEq, Repr

/-- Result of one chat-completion call: a transport/model exception, or a
reply with text (content or "") and requested tool calls (tool_calls or []). -/
inductive ModelResponse where
  | failure
  | reply (content : String) (tool_calls : List ToolCall)
deriving DecidableEq, Repr

/-- `SINGLE_CALL_TOOLS` (`ai_chat.py` lines 1824-1831). -/
def SINGLE_CALL_TOOLS : List String :=
  [ "schedule__add_workout", "schedule__update_workout", "schedule__delete_workout"
  , "template__create", "template__update", "profile__update_insights" ]

/-- The per-round dedup / single-call filtering loop (`ai_chat.py` lines
1865-1885): `seen` accumulates (name, serialized-arguments) keys, `used`
the single-call tools already granted an execution this round. -/
def filterToolCalls : List ToolCall → List (String × String) → List String → List ToolCall
  | [], _, _ => []
  | tc :: rest, seen, used =>
      if (tc.name, tc.args) ∈ seen then filterToolCalls rest seen used
      else if tc.name ∈ SINGLE_CALL_TOOLS ∧ tc.name ∈ used then
        filterToolCalls rest ((tc.name, tc.args) :: seen) used
      else if tc.name ∈ SINGLE_CALL_TOOLS then
        tc :: filterToolCalls rest ((tc.name, tc.args) :: seen) (tc.name :: used)
      else
        tc :: filterToolCalls rest ((tc.name, tc.args) :: seen) used

/-- `tool_calls_to_process` for one round: filtering starts from empty
`seen`/`used` sets, so both policies reset at every round boundary. -/
def roundSurvivors (tcs : List ToolCall) : List ToolCall :=
  filterToolCalls tcs [] []

/-- The fixed degraded message appended when the chat-completion call
raises (`ai_chat.py` line 1850). -/
def apologyMessage : String :=
  "I hit an error while trying to respond. Try again or rephrase what you want to do."

/-- The fixed fallback used when the final content is empty or
whitespace-only (`ai_chat.py` line 1976). -/
def fallbackMessage : String :=
  "I couldn’t generate a proper response just now, but nothing was changed. Try again."

/-- The assistant message recording the surviving tool calls of a round
(`ai_chat.py` line 1914). -/
def assistantToolCallMessage (text : String) (tcs : List ToolCall) : ChatMessage :=
  { role := Role.assistant, content := text
  , tool_calls := some (tcs.map fun tc => ⟨tc.id, tc.name, tc.args⟩) }

/-- The tool-role message recording one executed call's result
(`ai_chat.py` lines 1944-1946). -/
def toolResultMessage (handlers : String → String → HandlerOutcome)
    (tc : ToolCall) : ChatMessage :=
  { role := Role.tool, content := executeTool handlers tc.name tc.args
  , tool_name := some tc.name, tool_call_id := some tc.id }

/-- `max_tool_rounds` (`ai_chat.py` line 1821). -/
def MAX_TOOL_ROUNDS : Nat := 6

/-- How the tool loop of `generate_ai_chat_response` ended: an early return
from a failed chat-completion call (history already closed by the apology
message), or a normal exit carrying `final_content`, the history so far,
and the index of the next unconsumed model call. -/
inductive LoopExit where
  | earlyReturn (history : List ChatMessage) (trace : List (String × String))
  | finished (finalContent : String) (history : List ChatMessage)
      (trace : List (String × String)) (callIdx : Nat)
deriving DecidableEq, Repr

/-- The `for round_num in range(max_tool_rounds)` loop (`ai_chat.py` lines
1833-1954).  `model` is the chat-completion oracle indexed by how many
calls have been issued this request; `trace` records every executor
invocation as a (tool name, serialized arguments) pair, in order. -/
def runRounds (model : Nat → ModelResponse) (handlers : String → String → HandlerOutcome) :
    Nat → Nat → List ChatMessage → List (String × String) → LoopExit
  | ci, 0, hist, tr => LoopExit.finished "" hist tr ci
  | ci, fuel + 1, hist, tr =>
      match model ci with
      | ModelResponse.failure =>
          LoopExit.earlyReturn (hist ++ [{ role := Role.assistant, content := apologyMessage }]) tr
      | ModelResponse.reply text tcs =>
          if tcs = [] then LoopExit.finished text hist tr (ci + 1)
          else
            let survivors := roundSurvivors tcs
            if survivors = [] then
              match model (ci + 1) with
              | ModelResponse.failure => LoopExit.finished "" hist tr (ci + 2)
              | ModelResponse.reply c _ => LoopExit.finished c hist tr (ci + 2)
            else
              runRounds model handlers (ci + 1) fuel
                (hist ++ [assistantToolCallMessage text survivors]
                      ++ survivors.map (toolResultMessage handlers))
                (tr ++ survivors.map fun tc => (tc.name, tc.args))

/-- The outcome of one request: the returned message history, plus the
trace of executor invocations made along the way. -/
structure OrchOutcome where
  history : List ChatMessage
  execTrace : List (String × String)
deriving DecidableEq, Repr

/-- Step 4 of `generate_ai_chat_response` (lines 1956-1971): if the loop
produced no final content, force one tool-disabled model call; its failure
leaves the content empty. -/
def forcedFinal (model : Nat → ModelResponse) (fc : String) (ci : Nat) : String :=
  if fc = "" then
    (match model ci with
     | ModelResponse.failure => ""
     | ModelResponse.reply c _ => c)
  else fc

/-- Python's `s.strip() == ""` test: true exactly when every character is
whitespace (which includes the empty string). -/
def isBlankString (s : String) : Bool := s.toList.all (fun c => c.isWhitespace)

/-- Steps 4-5 of `generate_ai_chat_response`: the forced final call followed
by the blank-message safety net (lines 1973-1976,
`if not final_content or final_content.strip() == ""`). -/
def finalContentOf (model : Nat → ModelResponse) (fc : String) (ci : Nat) : String :=
  if forcedFinal model fc ci = "" ∨ isBlankString (forcedFinal model fc ci) = true
  then fallbackMessage
  else forcedFinal model fc ci

/-- `generate_ai_chat_response` (`ai_chat.py` lines 1769-1981): strip client
system messages, run the tool loop, force a tool-disabled call if no final
content was produced, substitute the fixed fallback for blank text, and
append exactly one final assistant message. -/
def generateAiChatResponse (model : Nat → ModelResponse)
    (handlers : String → String → HandlerOutcome)
    (messages : List ChatMessage) : OrchOutcome :=
  match runRounds model handlers 0 MAX_TOOL_ROUNDS
      (messages.filter (fun m => m.role != Role.system)) [] with
  | LoopExit.earlyReturn h tr => ⟨h, tr⟩
  | LoopExit.finished fc h tr ci =>
      ⟨h ++ [{ role := Role.assistant, content := finalContentOf model fc ci }], tr⟩

/-! ### Helper lemmas: the rule table and the normalizer -/

/-- A property holding of every rule's field list holds of any successful
lookup result. -/
lemma lookup_sat {P : List Field → Prop} (l : List (String × List Field))
    (hl : ∀ p ∈ l, P p.2) (k : String) (fs : List Field)
    (h : l.lookup k = some fs) : P fs := by
  induction l with
  | nil => simp [List.lookup] at h
  | cons p t ih =>
    rw [List.lookup_cons] at h
    by_cases hk : (k == p.1)
    · simp only [hk] at h
      injection h with h
      exact h ▸ hl p (List.mem_cons_self p t)
    · simp only [Bool.not_eq_true] at hk
      simp only [hk] at h
      exact ih (fun q hq => hl q (List.mem_cons_of_mem p hq)) h

/-- A resolved kind always has a rule. -/
lemma lookup_resolveKind_isSome (k : String) :
    (EXERCISE_KIND_RULES.lookup (resolveKind k)).isSome := by
  unfold resolveKind
  by_cases h : (EXERCISE_KIND_RULES.lookup (if k = "" then DEFAULT_EXERCISE_KIND else k)).isSome
  · simp [h]
  · simp only [Bool.not_eq_true] at h
    simp only [h, Bool.false_eq_true, if_false]
    decide

/-- `allowedOf k` is the actual field list of the resolved kind's rule. -/
lemma allowedOf_eq (k : String) :
    EXERCISE_KIND_RULES.lookup (resolveKind k) = some (allowedOf k) := by
  have h := lookup_resolveKind_isSome k
  unfold allowedOf
  cases hc : EXERCISE_KIND_RULES.lookup (resolveKind k) with
  | none => rw [hc] at h; simp at h
  | some fs => simp [hc]

/-- Table invariant: every rule in `EXERCISE_KIND_RULES` permits `reps` or
`duration`, so the normalizer's defensive final branch is unreachable. -/
lemma allowedOf_inv (k : String) :
    Field.reps ∈ allowedOf k ∨ Field.duration ∈ allowedOf k :=
  lookup_sat (P := fun fs => Field.reps ∈ fs ∨ Field.duration ∈ fs)
    EXERCISE_KIND_RULES (by decide) (resolveKind k) (allowedOf k) (allowedOf_eq k)

/-- A field guarded by an `if membership` test is only populated when the
membership holds. -/
lemma isSome_if_mem {α : Type} (P : Prop) [Decidable P] (x : Option α) :
    (if P then x else none).isSome → P := by
  intro h
  by_cases hP : P
  · exact hP
  · rw [if_neg hP] at h
    simp at h

/-- Step 3 leaves the record unchanged when its guard fails. -/
lemma normStep3_no_action (allowed : List Field) (s : SetFields)
    (h : ¬(((Field.duration ∈ allowed ∨ Field.distance ∈ allowed) ∧ Field.reps ∉ allowed)
      ∧ s.duration = none ∧ s.distance = none)) : normStep3 allowed s = s := by
  rw [normStep3, if_neg h]

/-- Step 4 leaves a non-empty record unchanged. -/
lemma normStep4_no_action (r : Option Int) (w : Option ℚ) (s : SetFields)
    (h : s ≠ SetFields.empty) : normStep4 r w s = s := by
  rw [normStep4, if_neg h]

/-- Core soundness of the normalizer steps: under the table invariant the
result only holds allowed fields and is non-empty. -/
lemma normCore_sound (allowed : List Field)
    (hInv : Field.reps ∈ allowed ∨ Field.duration ∈ allowed)
    (r : Option Int) (w d dist : Option ℚ) :
    (((normStep4 r w (normStep3 allowed (normStep2 allowed r w d dist))).reps.isSome → Field.reps ∈ allowed) ∧
     ((normStep4 r w (normStep3 allowed (normStep2 allowed r w d dist))).weight.isSome → Field.weight ∈ allowed) ∧
     ((normStep4 r w (normStep3 allowed (normStep2 allowed r w d dist))).duration.isSome → Field.duration ∈ allowed) ∧
     ((normStep4 r w (normStep3 allowed (normStep2 allowed r w d dist))).distance.isSome → Field.distance ∈ allowed)) ∧
    normStep4 r w (normStep3 allowed (normStep2 allowed r w d dist)) ≠ SetFields.empty := by
  by_cases hr : Field.reps ∈ allowed
  · have h3 : normStep3 allowed (normStep2 allowed r w d dist) = normStep2 allowed r w d dist :=
      normStep3_no_action _ _ (by intro hcon; exact hcon.1.2 hr)
    have hne : normStep2 allowed r w d dist ≠ SetFields.empty := by
      intro he
      have : (normStep2 allowed r w d dist).reps = none := by rw [he]; rfl
      rw [normStep2] at this
      simp only [if_pos hr] at this
      exact Option.some_ne_none _ this
    have h4 : normStep4 r w (normStep3 allowed (normStep2 allowed r w d dist)) = normStep2 allowed r w d dist := by
      rw [h3, normStep4, if_neg hne]
    rw [h4]
    exact ⟨⟨fun _ => hr, isSome_if_mem _ w, isSome_if_mem _ d, isSome_if_mem _ dist⟩, hne⟩
  · have hd : Field.duration ∈ allowed := hInv.resolve_left hr
    by_cases hc : (normStep2 allowed r w d dist).duration = none ∧ (normStep2 allowed r w d dist).distance = none
    · have h3 : normStep3 allowed (normStep2 allowed r w d dist) =
          { normStep2 allowed r w d dist with duration := some (if Field.distance ∈ allowed then (600 : ℚ) else 30) } := by
        unfold normStep3
        rw [if_pos ⟨⟨Or.inl hd, hr⟩, hc⟩]
      have hne : ({ normStep2 allowed r w d dist with duration := some (if Field.distance ∈ allowed then (600 : ℚ) else 30) } : SetFields) ≠ SetFields.empty := by
        intro he
        have : (SetFields.duration { normStep2 allowed r w d dist with duration := some (if Field.distance ∈ allowed then (600 : ℚ) else 30) }) = none := by
          rw [he]; rfl
        exact Option.some_ne_none _ this
      have h4 : normStep4 r w (normStep3 allowed (normStep2 allowed r w d dist)) =
          { normStep2 allowed r w d dist with duration := some (if Field.distance ∈ allowed then (600 : ℚ) else 30) } := by
        rw [h3, normStep4, if_neg hne]
      rw [h4]
      refine ⟨⟨?_, ?_, fun _ => hd, ?_⟩, hne⟩
      · show (normStep2 allowed r w d dist).reps.isSome → _
        rw [normStep2]
        simp only [if_neg hr]
        intro hcon
        simp at hcon
      · exact isSome_if_mem _ w
      · exact isSome_if_mem _ dist
    · have h3 : normStep3 allowed (normStep2 allowed r w d dist) = normStep2 allowed r w d dist := by
        apply normStep3_no_action
        intro hcon
        exact hc hcon.2
      have hne : normStep2 allowed r w d dist ≠ SetFields.empty := by
        intro he
        apply hc
        rw [he]
        exact ⟨rfl, rfl⟩
      have h4 : normStep4 r w (normStep3 allowed (normStep2 allowed r w d dist)) = normStep2 allowed r w d dist := by
        rw [h3, normStep4, if_neg hne]
      rw [h4]
      refine ⟨⟨?_, ?_, ?_, ?_⟩, hne⟩
      · show (if Field.reps ∈ allowed then some (r.getD 10) else none).isSome → _
        rw [if_neg hr]
        intro hcon
        simp at hcon
      · exact isSome_if_mem _ w
      · exact isSome_if_mem _ d
      · exact isSome_if_mem _ dist

/-- Core idempotence of the normalizer steps: feeding a normalized record's
fields back in reproduces it exactly. -/
lemma normCore_idem (allowed : List Field)
    (hInv : Field.reps ∈ allowed ∨ Field.duration ∈ allowed)
    (r : Option Int) (w d dist : Option ℚ) :
    normStep4 (normStep4 r w (normStep3 allowed (normStep2 allowed r w d dist))).reps
      (normStep4 r w (normStep3 allowed (normStep2 allowed r w d dist))).weight
      (normStep3 allowed
        (normStep2 allowed
          (normStep4 r w (normStep3 allowed (normStep2 allowed r w d dist))).reps
          (normStep4 r w (normStep3 allowed (normStep2 allowed r w d dist))).weight
          (normStep4 r w (normStep3 allowed (normStep2 allowed r w d dist))).duration
          (normStep4 r w (normStep3 allowed (normStep2 allowed r w d dist))).distance))
    = normStep4 r w (normStep3 allowed (normStep2 allowed r w d dist)) := by
  by_cases hr : Field.reps ∈ allowed
  · have h3 : normStep3 allowed (normStep2 allowed r w d dist) = normStep2 allowed r w d dist :=
      normStep3_no_action _ _ (by intro hcon; exact hcon.1.2 hr)
    have hne : normStep2 allowed r w d dist ≠ SetFields.empty := by
      intro he
      have : (normStep2 allowed r w d dist).reps = none := by rw [he]; rfl
      rw [normStep2] at this
      simp only [if_pos hr] at this
      exact Option.some_ne_none _ this
    rw [h3, normStep4_no_action _ _ _ hne]
    have h2 : normStep2 allowed (normStep2 allowed r w d dist).reps (normStep2 allowed r w d dist).weight
        (normStep2 allowed r w d dist).duration (normStep2 allowed r w d dist).distance
        = normStep2 allowed r w d dist := by
      simp only [normStep2, SetFields.mk.injEq]
      refine ⟨?_, ?_, ?_, ?_⟩ <;> (split <;> simp)
    rw [h2, h3, normStep4_no_action _ _ _ hne]
  · have hd : Field.duration ∈ allowed := hInv.resolve_left hr
    by_cases hc : (normStep2 allowed r w d dist).duration = none ∧ (normStep2 allowed r w d dist).distance = none
    · set v : ℚ := if Field.distance ∈ allowed then (600 : ℚ) else 30 with hv
      have h3 : normStep3 allowed (normStep2 allowed r w d dist) =
          { normStep2 allowed r w d dist with duration := some v } := by
        rw [normStep3, if_pos ⟨⟨Or.inl hd, hr⟩, hc⟩]
      have hne : ({ normStep2 allowed r w d dist with duration := some v } : SetFields) ≠ SetFields.empty := by
        intro he
        have : (SetFields.duration { normStep2 allowed r w d dist with duration := some v }) = none := by
          rw [he]; rfl
        exact Option.some_ne_none _ this
      rw [h3, normStep4_no_action _ _ _ hne]
      have h2 : normStep2 allowed
          (SetFields.reps { normStep2 allowed r w d dist with duration := some v })
          (SetFields.weight { normStep2 allowed r w d dist with duration := some v })
          (SetFields.duration { normStep2 allowed r w d dist with duration := some v })
          (SetFields.distance { normStep2 allowed r w d dist with duration := some v })
          = { normStep2 allowed r w d dist with duration := some v } := by
        simp only [normStep2, SetFields.mk.injEq]
        refine ⟨?_, ?_, ?_, ?_⟩
        · simp only [if_neg hr]
        · split <;> simp
        · simp only [if_pos hd]
        · have hdist2 : (normStep2 allowed r w d dist).distance = none := hc.2
          rw [normStep2] at hdist2
          simp only at hdist2
          simp only [hdist2]
          split <;> rfl
      rw [h2]
      have h3b : normStep3 allowed ({ normStep2 allowed r w d dist with duration := some v } : SetFields) =
          { normStep2 allowed r w d dist with duration := some v } := by
        apply normStep3_no_action
        intro hcon
        exact Option.some_ne_none _ hcon.2.1
      rw [h3b, normStep4_no_action _ _ _ hne]
    · have h3 : normStep3 allowed (normStep2 allowed r w d dist) = normStep2 allowed r w d dist := by
        apply normStep3_no_action
        intro hcon
        exact hc hcon.2
      have hne : normStep2 allowed r w d dist ≠ SetFields.empty := by
        intro he
        apply hc
        rw [he]
        exact ⟨rfl, rfl⟩
      rw [h3, normStep4_no_action _ _ _ hne]
      have h2 : normStep2 allowed (normStep2 allowed r w d dist).reps (normStep2 allowed r w d dist).weight
          (normStep2 allowed r w d dist).duration (normStep2 allowed r w d dist).distance
          = normStep2 allowed r w d dist := by
        simp only [normStep2, SetFields.mk.injEq]
        refine ⟨?_, ?_, ?_, ?_⟩ <;> (split <;> simp)
      rw [h2, h3, normStep4_no_action _ _ _ hne]

/-! ### Claims about the set normalizer -/

/-- C2: for every kind string (unknown kinds resolving to the default kind)
and every combination of supplied/absent reps, weight, duration and distance
values, the normalizer returns a record containing no field outside the
governing rule's allowed fields, and the record is never empty. -/
theorem C2_normalizer_allowed_fields_nonempty (kind : String) (r : Option Int)
    (w d dist : Option ℚ) :
    ((normalizeSetFieldsByKind kind r w d dist).reps.isSome → Field.reps ∈ allowedOf kind) ∧
    ((normalizeSetFieldsByKind kind r w d dist).weight.isSome → Field.weight ∈ allowedOf kind) ∧
    ((normalizeSetFieldsByKind kind r w d dist).duration.isSome → Field.duration ∈ allowedOf kind) ∧
    ((normalizeSetFieldsByKind kind r w d dist).distance.isSome → Field.distance ∈ allowedOf kind) ∧
    normalizeSetFieldsByKind kind r w d dist ≠ SetFields.empty := by
  have h := normCore_sound (allowedOf kind) (allowedOf_inv kind) r w d dist
  exact ⟨h.1.1, h.1.2.1, h.1.2.2.1, h.1.2.2.2, h.2⟩

/-- Witness for C2 at the concrete kind "Cardio" with a supplied distance. -/
theorem C2_normalizer_witness :
    ((normalizeSetFieldsByKind "Cardio" (some 5) none none (some 2)).reps.isSome → Field.reps ∈ allowedOf "Cardio") ∧
    ((normalizeSetFieldsByKind "Cardio" (some 5) none none (some 2)).weight.isSome → Field.weight ∈ allowedOf "Cardio") ∧
    ((normalizeSetFieldsByKind "Cardio" (some 5) none none (some 2)).duration.isSome → Field.duration ∈ allowedOf "Cardio") ∧
    ((normalizeSetFieldsByKind "Cardio" (some 5) none none (some 2)).distance.isSome → Field.distance ∈ allowedOf "Cardio") ∧
    normalizeSetFieldsByKind "Cardio" (some 5) none none (some 2) ≠ SetFields.empty :=
  C2_normalizer_allowed_fields_nonempty "Cardio" (some 5) none none (some 2)

/-- C8: for every kind in the rule table whose allowed fields exclude reps,
normalizing with no supplied values yields exactly a 600.0 duration when the
kind permits distance, and exactly a 30.0 duration when it permits duration
but not distance. -/
theorem C8_no_reps_defaults :
    ∀ p ∈ EXERCISE_KIND_RULES, Field.reps ∉ p.2 →
      (Field.distance ∈ p.2 →
        normalizeSetFieldsByKind p.1 none none none none = ⟨none, none, some 600, none⟩) ∧
      (Field.duration ∈ p.2 ∧ Field.distance ∉ p.2 →
        normalizeSetFieldsByKind p.1 none none none none = ⟨none, none, some 30, none⟩) := by
  decide

/-- Witness for C8 at the concrete kinds "Cardio" and "Duration". -/
theorem C8_no_reps_defaults_witness :
    normalizeSetFieldsByKind "Cardio" none none none none = ⟨none, none, some 600, none⟩ ∧
    normalizeSetFieldsByKind "Duration" none none none none = ⟨none, none, some 30, none⟩ :=
  ⟨(C8_no_reps_defaults ("Cardio", [Field.duration, Field.distance]) (by decide)
      (by decide)).1 (by decide),
   (C8_no_reps_defaults ("Duration", [Field.duration]) (by decide)
      (by decide)).2 ⟨by decide, by decide⟩⟩

/-- C9: normalization is idempotent — for every kind in the rule table,
feeding the fields of a normalized record back through the normalizer for
the same kind (absent fields passed as absent) reproduces the record. -/
theorem C9_normalize_idempotent :
    ∀ p ∈ EXERCISE_KIND_RULES, ∀ (r : Option Int) (w d dist : Option ℚ),
      normalizeSetFieldsByKind p.1
        (normalizeSetFieldsByKind p.1 r w d dist).reps
        (normalizeSetFieldsByKind p.1 r w d dist).weight
        (normalizeSetFieldsByKind p.1 r w d dist).duration
        (normalizeSetFieldsByKind p.1 r w d dist).distance
      = normalizeSetFieldsByKind p.1 r w d dist := by
  intro p _ r w d dist
  exact normCore_idem (allowedOf p.1) (allowedOf_inv p.1) r w d dist

/-- Witness for C9 at the concrete kind "Weighted Cardio" with a supplied
weight. -/
theorem C9_normalize_idempotent_witness :
    normalizeSetFieldsByKind "Weighted Cardio"
      (normalizeSetFieldsByKind "Weighted Cardio" (some 8) (some 20) none none).reps
      (normalizeSetFieldsByKind "Weighted Cardio" (some 8) (some 20) none none).weight
      (normalizeSetFieldsByKind "Weighted Cardio" (some 8) (some 20) none none).duration
      (normalizeSetFieldsByKind "Weighted Cardio" (some 8) (some 20) none none).distance
    = normalizeSetFieldsByKind "Weighted Cardio" (some 8) (some 20) none none :=
  C9_normalize_idempotent
    ("Weighted Cardio", [Field.duration, Field.weight, Field.distance])
    (by decide) (some 8) (some 20) none none

/-! ### Claims about the compact-spec expander -/

/-- C3 fails on the code: `order` is taken from `enumerate` over the
original input list, so a dropped spec (no exercise_id) does reserve an
order slot.  With a dropped first spec, the single retained exercise gets
order 1, not 0 — the orders are not contiguous starting at 0. -/
theorem C3_order_counterexample :
    (buildTemplateExercisesFromCompact (fun _ => some "Barbell")
      [⟨none, none, none, none, none, none, none⟩,
       ⟨some "e1", none, none, none, none, none, none⟩]).map (fun t => t.order) = [1] ∧
    (buildTemplateExercisesFromCompact (fun _ => some "Barbell")
      [⟨none, none, none, none, none, none, none⟩,
       ⟨some "e1", none, none, none, none, none, none⟩]).map (fun t => t.order)
      ≠ List.range (buildTemplateExercisesFromCompact (fun _ => some "Barbell")
          [⟨none, none, none, none, none, none, none⟩,
           ⟨some "e1", none, none, none, none, none, none⟩]).length := by
  exact ⟨by decide, by decide⟩

/-- C3 amended: specs lacking an `exercise_id` are dropped (they produce no
output element), but each retained spec's `order` equals its index in the
original input list — dropped specs do reserve an order slot, so the orders
are the (strictly increasing) positions of the retained specs, contiguous
from 0 only when nothing was dropped. -/
theorem C3_order_amended (kindMap : String → Option String) (exercises : List CompactSpec) :
    (buildTemplateExercisesFromCompact kindMap exercises).map (fun t => t.order)
      = ((List.enumFrom 0 exercises).filter (fun p => p.2.exercise_id.isSome)).map Prod.fst := by
  have key : ∀ (exs : List CompactSpec) (n : Nat),
      (buildFrom kindMap n exs).map (fun t => t.order)
        = ((List.enumFrom n exs).filter (fun p => p.2.exercise_id.isSome)).map Prod.fst := by
    intro exs
    induction exs with
    | nil => intro n; rfl
    | cons ex rest ih =>
      intro n
      rw [List.enumFrom_cons, List.filter_cons]
      cases hid : ex.exercise_id with
      | none =>
        simp only [buildFrom, expandOne, hid]
        simp only [Option.isSome_none, Bool.false_eq_true, if_false]
        exact ih (n + 1)
      | some e =>
        simp only [buildFrom, expandOne, hid]
        simp only [Option.isSome_some, if_true, List.map_cons]
        rw [ih (n + 1)]
  exact key exercises 0

/-- C6 fails on the code: for a "Barbell"-kind spec with no `sets` array but
a spec-level scalar hint `reps = 12`, the generated default sets carry
`reps = 10` (normalization with no supplied values), not the hinted 12 the
claim predicts — the spec's scalar hints are ignored entirely. -/
theorem C6_default_sets_counterexample :
    (expandOne (fun _ => some "Barbell") 0
        ⟨some "e1", none, none, some 12, none, none, none⟩).map (fun t => t.sets)
      = some (List.replicate 3 ⟨"normal", ⟨some 10, none, none, none⟩⟩) ∧
    normalizeSetFieldsByKind "Barbell" (some 12) none none none
      = ⟨some 12, none, none, none⟩ ∧
    ¬ (expandOne (fun _ => some "Barbell") 0
        ⟨some "e1", none, none, some 12, none, none, none⟩).map (fun t => t.sets)
      = some (List.replicate 3
          ⟨"normal", normalizeSetFieldsByKind "Barbell" (some 12) none none none⟩) := by
  exact ⟨by decide, by decide, by decide⟩

/-- C6 amended: when `sets` is absent, not an array, or yields zero usable
entries after filtering, the expander generates 1 default set if the
governing kind is time/distance-only, else 3, each built by normalizing
with no supplied values at all — the spec-level scalar hints (reps, weight,
duration, distance) are ignored. -/
theorem C6_default_sets_amended (kindMap : String → Option String) (i : Nat)
    (ex : CompactSpec) (e : String) (hid : ex.exercise_id = some e)
    (hsets : ∀ raw, ex.sets = some raw →
      raw.filterMap (parseSetItem (resolveSpecKind kindMap e)) = []) :
    ∃ t, expandOne kindMap i ex = some t ∧
      t.sets = List.replicate
        (if (Field.duration ∈ (EXERCISE_KIND_RULES.lookup (resolveSpecKind kindMap e)).getD []
              ∨ Field.distance ∈ (EXERCISE_KIND_RULES.lookup (resolveSpecKind kindMap e)).getD [])
            ∧ Field.reps ∉ (EXERCISE_KIND_RULES.lookup (resolveSpecKind kindMap e)).getD []
         then 1 else 3)
        ⟨"normal", normalizeSetFieldsByKind (resolveSpecKind kindMap e) none none none none⟩ := by
  cases hs : ex.sets with
  | none =>
    simp only [expandOne, hid, hs]
    refine ⟨_, rfl, ?_⟩
    rfl
  | some raw =>
    have hp := hsets raw hs
    simp only [expandOne, hid, hs, hp]
    refine ⟨_, rfl, ?_⟩
    simp only [if_pos rfl]
    rfl

/-- Witness for C6 (amended) at a "Duration"-kind spec with no sets array
and a stray scalar hint: exactly one default set is generated. -/
theorem C6_default_sets_witness :
    ∃ t, expandOne (fun _ => some "Duration") 0
        ⟨some "e2", none, none, some 12, none, none, none⟩ = some t ∧
      t.sets = List.replicate
        (if (Field.duration ∈ (EXERCISE_KIND_RULES.lookup
                (resolveSpecKind (fun _ => some "Duration") "e2")).getD []
              ∨ Field.distance ∈ (EXERCISE_KIND_RULES.lookup
                (resolveSpecKind (fun _ => some "Duration") "e2")).getD [])
            ∧ Field.reps ∉ (EXERCISE_KIND_RULES.lookup
                (resolveSpecKind (fun _ => some "Duration") "e2")).getD []
         then 1 else 3)
        ⟨"normal", normalizeSetFieldsByKind
            (resolveSpecKind (fun _ => some "Duration") "e2") none none none none⟩ :=
  C6_default_sets_amended (fun _ => some "Duration") 0
    ⟨some "e2", none, none, some 12, none, none, none⟩ "e2" rfl
    (fun raw h => by cases h)

/-- C10: during expansion of an explicit `sets` array, every JSON-object
entry is retained — a missing or unrecognized `set_type` is silently
replaced by "normal" and the entry is still normalized and kept; a valid
`set_type` is kept as-is; only non-object entries are skipped. -/
theorem C10_set_entry_retention (kind : String) (items : List SetItem) (st : Option String)
    (r : Option Int) (w d dist : Option ℚ) :
    (parseSetItem kind SetItem.notDict = none) ∧
    ((parseSetItem kind (SetItem.dict st r w d dist)).isSome) ∧
    (st = none → parseSetItem kind (SetItem.dict st r w d dist)
        = some ⟨"normal", normalizeSetFieldsByKind kind r w d dist⟩) ∧
    (∀ s, st = some s → s ∉ validSetTypes → parseSetItem kind (SetItem.dict st r w d dist)
        = some ⟨"normal", normalizeSetFieldsByKind kind r w d dist⟩) ∧
    (∀ s, st = some s → s ∈ validSetTypes → parseSetItem kind (SetItem.dict st r w d dist)
        = some ⟨s, normalizeSetFieldsByKind kind r w d dist⟩) ∧
    ((items.filterMap (parseSetItem kind)).length = (items.filter SetItem.isDict).length) := by
  refine ⟨rfl, ?_, ?_, ?_, ?_, ?_⟩
  · simp [parseSetItem]
  · intro h
    subst h
    simp only [parseSetItem, Option.getD_none]
    rw [if_pos (by decide)]
  · intro s h hns
    subst h
    simp only [parseSetItem, Option.getD_some]
    rw [if_neg hns]
  · intro s h hs
    subst h
    simp only [parseSetItem, Option.getD_some]
    rw [if_pos hs]
  · induction items with
    | nil => rfl
    | cons it rest ih =>
      cases it with
      | notDict =>
        simp only [List.filterMap_cons, parseSetItem, List.filter_cons]
        simpa [SetItem.isDict] using ih
      | dict st2 r2 w2 d2 dist2 =>
        simp only [List.filterMap_cons, parseSetItem, List.filter_cons]
        simp only [SetItem.isDict, if_true, List.length_cons]
        rw [ih]

/-- Witness for C10: an object entry with the unrecognized set_type "bogus"
is kept and its set_type becomes "normal". -/
theorem C10_set_entry_retention_witness :
    parseSetItem "Reps Only" (SetItem.dict (some "bogus") (some 5) none none none)
      = some ⟨"normal", normalizeSetFieldsByKind "Reps Only" (some 5) none none none⟩ :=
  (C10_set_entry_retention "Reps Only" [] (some "bogus")
    (some 5) none none none).2.2.2.1 "bogus" rfl (by decide)

/-! ### Helper lemmas: the tool executor -/

/-- A known tool name dispatches to its handler. -/
lemma dispatchTool_known (handlers : String → String → HandlerOutcome)
    (name args : String) (h : name ∈ knownToolNames) :
    dispatchTool handlers name args = handlers name args := by
  fin_cases h <;> rfl

/-- An unknown tool name falls through the whole chain. -/
lemma dispatchTool_unknown (handlers : String → String → HandlerOutcome)
    (name args : String) (h : name ∉ knownToolNames) :
    dispatchTool handlers name args
      = HandlerOutcome.returns (errorJson ("Unknown tool: " ++ name)) := by
  simp only [knownToolNames, List.mem_cons, List.not_mem_nil, or_false] at h
  push_neg at h
  obtain ⟨h1, h2, h3, h4, h5, h6, h7, h8, h9, h10, h11, h12, h13, h14⟩ := h
  simp only [dispatchTool, h1, h2, h3, h4, h5, h6, h7, h8, h9, h10, h11, h12, h13, h14,
    if_false]

/-! ### Helper lemmas: the round filter and the tool loop -/

/-- Every survivor of the round filter was requested, its key is not in
`seen`, and it is the first requested call carrying its (name, args) key. -/
lemma filterToolCalls_mem_spec :
    ∀ (tcs : List ToolCall) (seen : List (String × String)) (used : List String),
    ∀ tc ∈ filterToolCalls tcs seen used,
      (tc.name, tc.args) ∉ seen ∧ tc ∈ tcs ∧
      tcs.find? (fun b => b.name == tc.name && b.args == tc.args) = some tc := by
  intro tcs
  induction tcs with
  | nil =>
    intro seen used tc h
    simp [filterToolCalls] at h
  | cons a rest ih =>
    intro seen used tc h
    rw [filterToolCalls] at h
    split_ifs at h with h1 h2 h3
    · obtain ⟨hs, hm, hf⟩ := ih seen used tc h
      have hne : ¬(a.name == tc.name && a.args == tc.args) = true := by
        intro hb
        rw [Bool.and_eq_true, beq_iff_eq, beq_iff_eq] at hb
        exact hs (by rw [← hb.1, ← hb.2]; exact h1)
      exact ⟨hs, List.mem_cons_of_mem a hm,
        by rw [List.find?_cons_of_neg rest hne]; exact hf⟩
    · obtain ⟨hs, hm, hf⟩ := ih ((a.name, a.args) :: seen) used tc h
      have hs0 : (tc.name, tc.args) ∉ seen := fun hx => hs (List.mem_cons_of_mem _ hx)
      have hne : ¬(a.name == tc.name && a.args == tc.args) = true := by
        intro hb
        rw [Bool.and_eq_true, beq_iff_eq, beq_iff_eq] at hb
        exact hs (by rw [← hb.1, ← hb.2]; exact List.mem_cons_self _ _)
      exact ⟨hs0, List.mem_cons_of_mem a hm,
        by rw [List.find?_cons_of_neg rest hne]; exact hf⟩
    · rcases List.mem_cons.mp h with heq | htail
      · subst heq
        refine ⟨h1, List.mem_cons_self tc rest, ?_⟩
        exact List.find?_cons_of_pos rest (by simp)
      · obtain ⟨hs, hm, hf⟩ := ih ((a.name, a.args) :: seen) (a.name :: used) tc htail
        have hs0 : (tc.name, tc.args) ∉ seen := fun hx => hs (List.mem_cons_of_mem _ hx)
        have hne : ¬(a.name == tc.name && a.args == tc.args) = true := by
          intro hb
          rw [Bool.and_eq_true, beq_iff_eq, beq_iff_eq] at hb
          exact hs (by rw [← hb.1, ← hb.2]; exact List.mem_cons_self _ _)
        exact ⟨hs0, List.mem_cons_of_mem a hm,
          by rw [List.find?_cons_of_neg rest hne]; exact hf⟩
    · rcases List.mem_cons.mp h with heq | htail
      · subst heq
        refine ⟨h1, List.mem_cons_self tc rest, ?_⟩
        exact List.find?_cons_of_pos rest (by simp)
      · obtain ⟨hs, hm, hf⟩ := ih ((a.name, a.args) :: seen) used tc htail
        have hs0 : (tc.name, tc.args) ∉ seen := fun hx => hs (List.mem_cons_of_mem _ hx)
        have hne : ¬(a.name == tc.name && a.args == tc.args) = true := by
          intro hb
          rw [Bool.and_eq_true, beq_iff_eq, beq_iff_eq] at hb
          exact hs (by rw [← hb.1, ← hb.2]; exact List.mem_cons_self _ _)
        exact ⟨hs0, List.mem_cons_of_mem a hm,
          by rw [List.find?_cons_of_neg rest hne]; exact hf⟩

/-- Survivor (name, args) keys are pairwise distinct within one round. -/
lemma filterToolCalls_keys_nodup :
    ∀ (tcs : List ToolCall) (seen : List (String × String)) (used : List String),
      ((filterToolCalls tcs seen used).map (fun tc => (tc.name, tc.args))).Nodup := by
  intro tcs
  induction tcs with
  | nil => intro seen used; simp [filterToolCalls]
  | cons a rest ih =>
    intro seen used
    rw [filterToolCalls]
    split_ifs with h1 h2 h3
    · exact ih seen used
    · exact ih _ used
    · rw [List.map_cons, List.nodup_cons]
      refine ⟨?_, ih _ _⟩
      intro hx
      rcases List.mem_map.mp hx with ⟨tc, htc, hk⟩
      have hs := (filterToolCalls_mem_spec rest _ _ tc htc).1
      exact hs (hk ▸ List.mem_cons_self _ _)
    · rw [List.map_cons, List.nodup_cons]
      refine ⟨?_, ih _ _⟩
      intro hx
      rcases List.mem_map.mp hx with ⟨tc, htc, hk⟩
      have hs := (filterToolCalls_mem_spec rest _ _ tc htc).1
      exact hs (hk ▸ List.mem_cons_self _ _)

/-- A single-call tool already used this round yields no further survivors. -/
lemma filterToolCalls_used_none :
    ∀ (tcs : List ToolCall) (seen : List (String × String)) (used : List String)
      (name : String), name ∈ SINGLE_CALL_TOOLS → name ∈ used →
      (filterToolCalls tcs seen used).filter (fun tc => tc.name == name) = [] := by
  intro tcs
  induction tcs with
  | nil => intro seen used name _ _; rfl
  | cons a rest ih =>
    intro seen used name hSC hu
    rw [filterToolCalls]
    split_ifs with h1 h2 h3
    · exact ih seen used name hSC hu
    · exact ih _ used name hSC hu
    · have hau : a.name ∉ used := fun hx => h2 ⟨h3, hx⟩
      have hne : ¬(a.name == name) = true := by
        intro hb
        rw [beq_iff_eq] at hb
        exact hau (hb ▸ hu)
      rw [List.filter_cons, if_neg hne]
      exact ih _ (a.name :: used) name hSC (List.mem_cons_of_mem _ hu)
    · have hne : ¬(a.name == name) = true := by
        intro hb
        rw [beq_iff_eq] at hb
        exact h3 (hb ▸ hSC)
      rw [List.filter_cons, if_neg hne]
      exact ih _ used name hSC hu

/-- For a single-call tool not yet used and not yet seen, the surviving
calls with that tool name are exactly the first requested one (or none). -/
lemma filterToolCalls_single_call_first :
    ∀ (tcs : List ToolCall) (seen : List (String × String)) (used : List String)
      (name : String), name ∈ SINGLE_CALL_TOOLS → name ∉ used →
      (∀ ar, (name, ar) ∉ seen) →
      (tcs.find? (fun tc => tc.name == name) = none →
        (filterToolCalls tcs seen used).filter (fun tc => tc.name == name) = []) ∧
      (∀ tc0, tcs.find? (fun tc => tc.name == name) = some tc0 →
        (filterToolCalls tcs seen used).filter (fun tc => tc.name == name) = [tc0]) := by
  intro tcs
  induction tcs with
  | nil =>
    intro seen used name _ _ _
    exact ⟨fun _ => rfl, fun tc0 h => by simp at h⟩
  | cons a rest ih =>
    intro seen used name hSC hnu hseen
    by_cases ha : a.name = name
    · have hpa : (a.name == name) = true := beq_iff_eq.mpr ha
      constructor
      · intro hf
        rw [List.find?_cons_of_pos rest hpa] at hf
        cases hf
      · intro tc0 hf
        rw [List.find?_cons_of_pos rest hpa] at hf
        injection hf with hf
        subst hf
        rw [filterToolCalls]
        split_ifs with h1 h2 h3
        · exact absurd h1 (ha ▸ hseen a.args)
        · exact absurd h2.2 (ha ▸ hnu)
        · rw [List.filter_cons, if_pos hpa]
          rw [filterToolCalls_used_none rest _ (a.name :: used) name hSC
            (ha ▸ List.mem_cons_self _ _)]
        · exact absurd (ha ▸ hSC) h3
    · have hpa : ¬(a.name == name) = true := by
        intro hb
        exact ha (beq_iff_eq.mp hb)
      have hfind : List.find? (fun tc => tc.name == name) (a :: rest)
          = List.find? (fun tc => tc.name == name) rest :=
        List.find?_cons_of_neg rest hpa
      have hseen2 : ∀ ar, (name, ar) ∉ ((a.name, a.args) :: seen) := by
        intro ar hx
        rcases List.mem_cons.mp hx with hx | hx
        · exact ha (by injection hx with hx1 _; exact hx1.symm)
        · exact hseen ar hx
      rw [filterToolCalls]
      split_ifs with h1 h2 h3
      · exact ⟨fun hf => (ih seen used name hSC hnu hseen).1 (by rw [hfind] at hf; exact hf),
               fun tc0 hf => (ih seen used name hSC hnu hseen).2 tc0 (by rw [hfind] at hf; exact hf)⟩
      · exact ⟨fun hf => (ih _ used name hSC hnu hseen2).1 (by rw [hfind] at hf; exact hf),
               fun tc0 hf => (ih _ used name hSC hnu hseen2).2 tc0 (by rw [hfind] at hf; exact hf)⟩
      · have hnu2 : name ∉ (a.name :: used) := by
          intro hx
          rcases List.mem_cons.mp hx with hx | hx
          · exact ha hx.symm
          · exact hnu hx
        refine ⟨?_, ?_⟩
        · intro hf
          rw [hfind] at hf
          rw [List.filter_cons, if_neg hpa]
          exact (ih _ _ name hSC hnu2 hseen2).1 hf
        · intro tc0 hf
          rw [hfind] at hf
          rw [List.filter_cons, if_neg hpa]
          exact (ih _ _ name hSC hnu2 hseen2).2 tc0 hf
      · refine ⟨?_, ?_⟩
        · intro hf
          rw [hfind] at hf
          rw [List.filter_cons, if_neg hpa]
          exact (ih _ used name hSC hnu hseen2).1 hf
        · intro tc0 hf
          rw [hfind] at hf
          rw [List.filter_cons, if_neg hpa]
          exact (ih _ used name hSC hnu hseen2).2 tc0 hf

/-- The tool loop only appends to the history; an early return closes the
history with the apology message. -/
lemma runRounds_shape (model : Nat → ModelResponse)
    (handlers : String → String → HandlerOutcome) :
    ∀ (fuel ci : Nat) (hist : List ChatMessage) (tr : List (String × String)),
      (∃ h2 tr2, runRounds model handlers ci fuel hist tr = LoopExit.earlyReturn h2 tr2 ∧
        ∃ mid, h2 = hist ++ mid ++ [{ role := Role.assistant, content := apologyMessage }]) ∨
      (∃ fc h2 tr2 ci2, runRounds model handlers ci fuel hist tr = LoopExit.finished fc h2 tr2 ci2 ∧
        ∃ mid, h2 = hist ++ mid) := by
  intro fuel
  induction fuel with
  | zero =>
    intro ci hist tr
    right
    exact ⟨"", hist, tr, ci, rfl, [], by simp⟩
  | succ fuel ih =>
    intro ci hist tr
    rw [runRounds]
    split
    · left
      refine ⟨_, _, rfl, [], ?_⟩
      simp
    · rename_i text tcs heq
      by_cases htc : tcs = []
      · right
        rw [if_pos htc]
        exact ⟨text, hist, tr, ci + 1, rfl, [], by simp⟩
      · rw [if_neg htc]
        dsimp only
        by_cases hsv : roundSurvivors tcs = []
        · rw [if_pos hsv]
          right
          split
          · exact ⟨"", hist, tr, ci + 2, rfl, [], by simp⟩
          · rename_i c tcs2 heq2
            exact ⟨c, hist, tr, ci + 2, rfl, [], by simp⟩
        · rw [if_neg hsv]
          rcases ih (ci + 1)
              (hist ++ [assistantToolCallMessage text (roundSurvivors tcs)]
                    ++ (roundSurvivors tcs).map (toolResultMessage handlers))
              (tr ++ (roundSurvivors tcs).map fun tc => (tc.name, tc.args)) with
            ⟨h2, tr2, heqr, mid, hmid⟩ | ⟨fc, h2, tr2, ci2, heqr, mid, hmid⟩
          · left
            refine ⟨h2, tr2, heqr, [assistantToolCallMessage text (roundSurvivors tcs)]
                ++ (roundSurvivors tcs).map (toolResultMessage handlers) ++ mid, ?_⟩
            rw [hmid]
            simp [List.append_assoc]
          · right
            refine ⟨fc, h2, tr2, ci2, heqr, [assistantToolCallMessage text (roundSurvivors tcs)]
                ++ (roundSurvivors tcs).map (toolResultMessage handlers) ++ mid, ?_⟩
            rw [hmid]
            simp [List.append_assoc]

/-- The final content is never empty and never whitespace-only. -/
lemma finalContentOf_nonblank (model : Nat → ModelResponse) (fc : String) (ci : Nat) :
    finalContentOf model fc ci ≠ "" ∧ isBlankString (finalContentOf model fc ci) = false := by
  rw [finalContentOf]
  by_cases hb : forcedFinal model fc ci = "" ∨ isBlankString (forcedFinal model fc ci) = true
  · rw [if_pos hb]
    exact ⟨by decide, by decide⟩
  · rw [if_neg hb]
    push_neg at hb
    exact ⟨hb.1, by simpa using hb.2⟩

/-! ### Claims about the orchestrator and the executor -/

/-- C1: every request — normal final response, model/transport failure,
all tool calls dropped by policy, or round budget exhausted — ends with
exactly one assistant message, with non-empty non-whitespace content,
appended at the end of the returned history; a blank model answer is
replaced by the fixed fallback string. -/
theorem C1_final_assistant_nonempty (model : Nat → ModelResponse)
    (handlers : String → String → HandlerOutcome) (messages : List ChatMessage) :
    ∃ mid fc, (generateAiChatResponse model handlers messages).history
        = messages.filter (fun m => m.role != Role.system) ++ mid
          ++ [{ role := Role.assistant, content := fc }] ∧
      fc ≠ "" ∧ isBlankString fc = false := by
  rw [generateAiChatResponse]
  rcases runRounds_shape model handlers MAX_TOOL_ROUNDS 0
      (messages.filter (fun m => m.role != Role.system)) [] with
    ⟨h2, tr2, heq, mid, hmid⟩ | ⟨fc, h2, tr2, ci2, heq, mid, hmid⟩
  · rw [heq]
    exact ⟨mid, apologyMessage, hmid, by decide, by decide⟩
  · rw [heq]
    subst hmid
    exact ⟨mid, finalContentOf model fc ci2, rfl,
      (finalContentOf_nonblank model fc ci2).1, (finalContentOf_nonblank model fc ci2).2⟩

/-- C4 fails on the code: with two identical requested calls
(same tool name, same serialized arguments) in one round, the executor runs
once, but the duplicate call id "id2" receives no tool-role message at all
— the result is not reused for it; the duplicate is dropped entirely. -/
theorem C4_dedup_counterexample :
    (generateAiChatResponse
        (fun i => if i = 0 then
            ModelResponse.reply "" [⟨"id1", "exercise__create_single", "A"⟩,
                                    ⟨"id2", "exercise__create_single", "A"⟩]
          else ModelResponse.reply "done" [])
        (fun _ _ => HandlerOutcome.returns "RESULT") []).execTrace
      = [("exercise__create_single", "A")] ∧
    ((generateAiChatResponse
        (fun i => if i = 0 then
            ModelResponse.reply "" [⟨"id1", "exercise__create_single", "A"⟩,
                                    ⟨"id2", "exercise__create_single", "A"⟩]
          else ModelResponse.reply "done" [])
        (fun _ _ => HandlerOutcome.returns "RESULT") []).history.filter
          (fun m => m.role == Role.tool)).map (fun m => m.tool_call_id)
      = [some "id1"] ∧
    ∀ m ∈ (generateAiChatResponse
        (fun i => if i = 0 then
            ModelResponse.reply "" [⟨"id1", "exercise__create_single", "A"⟩,
                                    ⟨"id2", "exercise__create_single", "A"⟩]
          else ModelResponse.reply "done" [])
        (fun _ _ => HandlerOutcome.returns "RESULT") []).history,
      m.tool_call_id ≠ some "id2" := by
  exact ⟨by decide, by decide, by decide⟩

/-- C4 amended: within one round, identical (tool name, serialized
arguments) requests execute at most once — the surviving call for a key is
the first requested occurrence of that key — and each survivor produces
exactly one tool-role message paired with its own call id; duplicate call
ids receive no result message at all. -/
theorem C4_dedup_amended (handlers : String → String → HandlerOutcome)
    (tcs : List ToolCall) :
    ((roundSurvivors tcs).map (fun tc => (tc.name, tc.args))).Nodup ∧
    (∀ tc ∈ roundSurvivors tcs,
      tcs.find? (fun b => b.name == tc.name && b.args == tc.args) = some tc) ∧
    ((roundSurvivors tcs).map (toolResultMessage handlers)).map (fun m => m.tool_call_id)
      = (roundSurvivors tcs).map (fun tc => some tc.id) := by
  refine ⟨filterToolCalls_keys_nodup tcs [] [], ?_, ?_⟩
  · intro tc h
    exact (filterToolCalls_mem_spec tcs [] [] tc h).2.2
  · rw [List.map_map]
    rfl

/-- Witness for C4 (amended) on a round with a duplicated identical call:
the keys of the survivors are distinct, and the survivor with the key
("exercise__create_single", "A") is the first requested occurrence "id1". -/
theorem C4_dedup_witness :
    (([⟨"id1", "exercise__create_single", "A"⟩, ⟨"id2", "exercise__create_single", "A"⟩]
        : List ToolCall).find?
          (fun b => b.name == "exercise__create_single" && b.args == "A"))
      = some ⟨"id1", "exercise__create_single", "A"⟩ :=
  (C4_dedup_amended (fun _ _ => HandlerOutcome.returns "RESULT")
      [⟨"id1", "exercise__create_single", "A"⟩, ⟨"id2", "exercise__create_single", "A"⟩]).2.1
    ⟨"id1", "exercise__create_single", "A"⟩ (by decide)

/-- C5: each single-call tool executes at most once per round — the first
requested call is the one executed, later requests to the same tool in the
round are dropped without producing any result message — and the limit
resets between rounds: the same tool requested in two different rounds
executes once per round. -/
theorem C5_single_call_per_round (handlers : String → String → HandlerOutcome)
    (tcs : List ToolCall) (name : String) (hname : name ∈ SINGLE_CALL_TOOLS) :
    (((roundSurvivors tcs).filter (fun tc => tc.name == name)).length ≤ 1) ∧
    (∀ tc0, tcs.find? (fun tc => tc.name == name) = some tc0 →
      (roundSurvivors tcs).filter (fun tc => tc.name == name) = [tc0]) ∧
    (∀ tc ∈ roundSurvivors tcs, tc ∈ tcs) ∧
    ((roundSurvivors tcs).map (toolResultMessage handlers)).length
      = (roundSurvivors tcs).length ∧
    (generateAiChatResponse
        (fun i => if i = 0 then ModelResponse.reply "" [⟨"i1", "schedule__add_workout", "a1"⟩]
          else if i = 1 then ModelResponse.reply "" [⟨"i2", "schedule__add_workout", "a2"⟩]
          else ModelResponse.reply "done" [])
        (fun _ _ => HandlerOutcome.returns "ok") []).execTrace
      = [("schedule__add_workout", "a1"), ("schedule__add_workout", "a2")] ∧
    (generateAiChatResponse
        (fun i => if i = 0 then ModelResponse.reply ""
            [⟨"i1", "schedule__add_workout", "a1"⟩, ⟨"i2", "schedule__add_workout", "a2"⟩,
             ⟨"i3", "schedule__add_workout", "a3"⟩]
          else ModelResponse.reply "done" [])
        (fun _ _ => HandlerOutcome.returns "ok") []).execTrace
      = [("schedule__add_workout", "a1")] := by
  have hfirst := filterToolCalls_single_call_first tcs [] [] name hname
    (by simp) (by simp)
  refine ⟨?_, hfirst.2, ?_, List.length_map _ _, by decide, by decide⟩
  · cases hf : tcs.find? (fun tc => tc.name == name) with
    | none => rw [roundSurvivors, hfirst.1 hf]; exact Nat.zero_le 1
    | some tc0 => rw [roundSurvivors, hfirst.2 tc0 hf]; exact Nat.le_refl 1
  · intro tc h
    exact (filterToolCalls_mem_spec tcs [] [] tc h).2.1

/-- Witness for C5 on a round requesting "template__create" twice with
different arguments: only the first requested call survives. -/
theorem C5_single_call_witness :
    (roundSurvivors [⟨"x1", "template__create", "t1"⟩, ⟨"x2", "template__create", "t2"⟩]).filter
        (fun tc => tc.name == "template__create")
      = [⟨"x1", "template__create", "t1"⟩] :=
  (C5_single_call_per_round (fun _ _ => HandlerOutcome.returns "ok")
      [⟨"x1", "template__create", "t1"⟩, ⟨"x2", "template__create", "t2"⟩]
      "template__create" (by decide)).2.1
    ⟨"x1", "template__create", "t1"⟩ (by decide)

/-- C7: `execute_tool` never lets an exception propagate — an unknown tool
name yields a structured error payload rather than raising, any exception
from a handler is converted into a structured error result at the dispatch
boundary, and a normal handler return passes through unchanged. -/
theorem C7_execute_tool_no_propagation (handlers : String → String → HandlerOutcome)
    (name args : String) :
    (name ∉ knownToolNames →
      executeTool handlers name args = errorJson ("Unknown tool: " ++ name)) ∧
    (∀ msg, name ∈ knownToolNames → handlers name args = HandlerOutcome.raises msg →
      executeTool handlers name args = errorJson msg) ∧
    (∀ r, name ∈ knownToolNames → handlers name args = HandlerOutcome.returns r →
      executeTool handlers name args = r) := by
  refine ⟨?_, ?_, ?_⟩
  · intro h
    rw [executeTool, dispatchTool_unknown handlers name args h]
  · intro msg hk hr
    rw [executeTool, dispatchTool_known handlers name args hk, hr]
  · intro r hk hr
    rw [executeTool, dispatchTool_known handlers name args hk, hr]

/-- Witness for C7: an unknown name produces the structured error payload,
and a raising handler for a known name is converted to a structured error. -/
theorem C7_execute_tool_witness :
    executeTool (fun _ _ => HandlerOutcome.raises "boom") "no_such_tool" "x"
      = errorJson ("Unknown tool: " ++ "no_such_tool") ∧
    executeTool (fun _ _ => HandlerOutcome.raises "boom") "template__create" "x"
      = errorJson "boom" :=
  ⟨(C7_execute_tool_no_propagation (fun _ _ => HandlerOutcome.raises "boom")
      "no_such_tool" "x").1 (by decide),
   (C7_execute_tool_no_propagation (fun _ _ => HandlerOutcome.raises "boom")
      "template__create" "x").2.1 "boom" (by decide) rfl⟩

end AiChat
